import Mathlib

/-!
Shallow embedding of the ScreenMaster screen-recorder / screenshot-annotator
(sources: `App.tsx`, `components/ScreenshotEditor.tsx`, `components/SettingsPanel.tsx`,
`hooks/useHotkeys.ts`, `types.ts`).

Pure logic (mime negotiation, hotkey matching, settings merge, undo history)
is translated directly; browser effects (getDisplayMedia, MediaRecorder,
setInterval, console, file downloads) are modelled by an explicit
environment record `Env` and by explicit state passing over `AppState`.
-/

namespace ScreenMaster

/-- Application mode, from `types.ts` `enum AppMode`. -/
inductive AppMode
  | IDLE
  | RECORDING
  | SCREENSHOT_PREVIEW
  | SETTINGS
  | GALLERY
deriving DecidableEq, Repr

/-- Drawing tool, from `types.ts` `enum DrawTool`. -/
inductive DrawTool
  | PEN
  | RECTANGLE
  | ARROW
  | TEXT
deriving DecidableEq, Repr

/-- A point in canvas pixel space, from `types.ts` `interface Point`. -/
structure Point where
  x : Int
  y : Int
deriving DecidableEq, Repr

/-- The `saveFormat` field of `AppSettings` (`'mp4' | 'webm'`). -/
inductive SaveFormat
  | mp4
  | webm
deriving DecidableEq, Repr

/-- Field names of the `AppSettings` interface (`keyof AppSettings`). -/
inductive SettingsKey
  | showCursor
  | audioEnabled
  | frameRate
  | videoBitrate
  | saveFormat
deriving DecidableEq, Repr

/-- A value storable in a settings field (the TS signature types it `any`;
the values actually passed are booleans, numbers and format strings). -/
inductive SettingsValue
  | b (v : Bool)
  | n (v : Nat)
  | fmt (v : SaveFormat)
deriving DecidableEq, Repr

/-- The settings object viewed as a JS record: a map from field name to
value.  This is the view on which the update `{...prev, [key]: value}`
operates. -/
def SettingsRecord : Type := SettingsKey → SettingsValue

/-- `updateSettings` from `App.tsx`:
`setSettings(prev => ({ ...prev, [key]: value }))` — a spread merge that
replaces the one named field and copies every other field from `prev`. -/
def updateSettings (prev : SettingsRecord) (key : SettingsKey) (value : SettingsValue) :
    SettingsRecord :=
  fun k => if k = key then value else prev k

/-- Typed view of the `AppSettings` interface from `types.ts`. -/
structure AppSettings where
  showCursor : Bool
  audioEnabled : Bool
  frameRate : Nat
  videoBitrate : Nat
  saveFormat : SaveFormat
deriving DecidableEq, Repr

/-- The record (JS-object) view of a typed settings value. -/
def AppSettings.toRecord (a : AppSettings) : SettingsRecord
  | SettingsKey.showCursor => SettingsValue.b a.showCursor
  | SettingsKey.audioEnabled => SettingsValue.b a.audioEnabled
  | SettingsKey.frameRate => SettingsValue.n a.frameRate
  | SettingsKey.videoBitrate => SettingsValue.n a.videoBitrate
  | SettingsKey.saveFormat => SettingsValue.fmt a.saveFormat

/-- `DEFAULT_SETTINGS` from `App.tsx`. -/
def DEFAULT_SETTINGS : AppSettings :=
  { showCursor := true
    audioEnabled := false
    frameRate := 30
    videoBitrate := 5000000
    saveFormat := SaveFormat.mp4 }

/-! ## Hotkeys (`hooks/useHotkeys.ts`) -/

/-- The relevant fields of a browser `KeyboardEvent`. -/
structure KeyEvent where
  ctrlKey : Bool
  shiftKey : Bool
  altKey : Bool
  metaKey : Bool
  key : String
deriving DecidableEq, Repr

/-- What `handleKeyDown` does to an event: whether it calls
`event.preventDefault()` and whether it invokes the bound callback. -/
structure HandlerResult where
  preventDefault : Bool
  callbackInvoked : Bool
deriving DecidableEq, Repr

/-- JS `String.prototype.toLowerCase` on the ASCII chord/key strings this
app uses: lower-case each character. -/
def jsToLower (s : String) : String :=
  String.mk (s.data.map Char.toLower)

/-- Split a character list at every occurrence of `sep`, keeping empty
segments, exactly as JS `split(sep)` does on the underlying characters. -/
def splitChars (sep : Char) : List Char → List (List Char)
  | [] => [[]]
  | c :: cs =>
      let r := splitChars sep cs
      if c = sep then [] :: r
      else
        match r with
        | [] => [[c]]
        | h :: t => (c :: h) :: t

/-- `keyCombo.toLowerCase().split('+')`. -/
def hotkeyKeys (keyCombo : String) : List String :=
  (splitChars '+' (jsToLower keyCombo).data).map String.mk

/-- The modifier-name list `['ctrl', 'shift', 'alt']` used by `handleKeyDown`. -/
def modifierNames : List String := ["ctrl", "shift", "alt"]

/-- The `pressed` array built by `handleKeyDown`: one boolean per required
modifier present in the chord, then one boolean recording whether
`event.key.toLowerCase()` equals the found non-modifier key.  The source
guards that push with JS truthiness — `if (mainKey && ...)` /
`else if (!mainKey)` — so both `undefined` (no non-modifier entry) and the
empty string (a falsy found entry, as in `"ctrl+"`) push nothing. -/
def hotkeyPressedList (keys : List String) (e : KeyEvent) : List Bool :=
  (if keys.contains "ctrl" then [e.ctrlKey] else []) ++
  (if keys.contains "shift" then [e.shiftKey] else []) ++
  (if keys.contains "alt" then [e.altKey] else []) ++
  (match keys.find? (fun k => !(modifierNames.contains k)) with
   | some mainKey => if mainKey = "" then [] else [jsToLower e.key == mainKey]
   | none => [])

/-- `handleKeyDown` from `useHotkeys`: fires (preventDefault + callback)
iff every entry of `pressed` is true and `pressed.length === keys.length`. -/
def handleKeyDown (keyCombo : String) (e : KeyEvent) : HandlerResult :=
  let keys := hotkeyKeys keyCombo
  let pressed := hotkeyPressedList keys e
  let fire := pressed.all (fun p => p) && pressed.length == keys.length
  { preventDefault := fire, callbackInvoked := fire }

/-! ## Recording controller (`App.tsx`) -/

/-- A media track; `stop()` sets `stopped`. -/
structure Track where
  stopped : Bool
deriving DecidableEq, Repr

/-- A capture stream: a bag of tracks. -/
structure MediaStream where
  tracks : List Track
deriving DecidableEq, Repr

/-- MediaRecorder state (the `paused` state is never used by this app). -/
inductive RecorderState
  | inactive
  | recording
deriving DecidableEq, Repr

/-- The MediaRecorder handle held in `mediaRecorderRef`. -/
structure Recorder where
  state : RecorderState
  mimeType : String
deriving DecidableEq, Repr

/-- The candidate list `mp4Types` probed by `startRecording`. -/
def mp4Types : List String :=
  ["video/mp4;codecs=avc1", "video/mp4", "video/webm;codecs=h264"]

/-- The mime-type negotiation inside `startRecording`:
start from `'video/webm;codecs=vp9'`; only when `settings.saveFormat === 'mp4'`
probe `mp4Types` with `MediaRecorder.isTypeSupported` and take the first
supported candidate (keeping the vp9 default when none is supported). -/
def chooseMimeType (saveFormat : SaveFormat) (isTypeSupported : String → Bool) : String :=
  let mimeType := "video/webm;codecs=vp9"
  if saveFormat = SaveFormat.mp4 then
    match mp4Types.find? isTypeSupported with
    | some supported => supported
    | none => mimeType
  else
    mimeType

/-- Spec-worded variant (§4.1 / C4): the encoding is chosen, for every
configured save format, by probing the fixed candidate list and taking the
first supported entry, falling back to the vp9 default.  Kept separate from
`chooseMimeType` (the code) to compare the two. -/
def chooseMimeTypeSpec (isTypeSupported : String → Bool) : String :=
  match mp4Types.find? isTypeSupported with
  | some supported => supported
  | none => "video/webm;codecs=vp9"

/-- Browser-side inputs of one pass through the capture flows: what
`getDisplayMedia` yields (`none` = the promise rejects, e.g. the user
cancels the picker), which mime types `MediaRecorder.isTypeSupported`
accepts, whether constructing/starting a `MediaRecorder` succeeds for a
given mime type, the id a `setInterval` call returns, the clock, and the
screenshot-path analogues. -/
structure Env where
  displayMediaResult : Option MediaStream
  isTypeSupported : String → Bool
  recorderOk : String → Bool
  freshTimerId : Nat
  now : Nat
  screenshotDisplayMedia : Option MediaStream
  screenshotCtxOk : Bool
  screenshotDataUrl : String

/-- The mutable state of the `App` component: mode/settings/time/screenshot
React state, the four refs, plus explicit views of the browser world the
component mutates (active interval ids, triggered downloads, console log). -/
structure AppState where
  mode : AppMode
  settings : AppSettings
  recordingTime : Nat
  screenshotSrc : Option String
  mediaRecorderRef : Option Recorder
  streamRef : Option MediaStream
  chunksRef : List Nat
  timerRef : Option Nat
  onendedRegistered : Bool
  intervals : List Nat
  downloads : List String
  log : List String

/-- The initial state of the `App` component. -/
def initialAppState : AppState :=
  { mode := AppMode.IDLE
    settings := DEFAULT_SETTINGS
    recordingTime := 0
    screenshotSrc := none
    mediaRecorderRef := none
    streamRef := none
    chunksRef := []
    timerRef := none
    onendedRegistered := false
    intervals := []
    downloads := []
    log := [] }

/-- `saveRecording` from `App.tsx` (the recorder's `onstop` handler):
builds a blob from the buffered chunks and triggers a download named
`recording-<timestamp>.<ext>` where the extension follows the configured
save format. -/
def saveRecording (env : Env) (s : AppState) : AppState :=
  let ext := if s.settings.saveFormat = SaveFormat.mp4 then "mp4" else "webm"
  { s with downloads := s.downloads ++ ["recording-" ++ toString env.now ++ "." ++ ext] }

/-- `stopRecording` from `App.tsx`: stop the recorder when it is not
inactive (which fires `onstop` = `saveRecording`), stop every track of the
held stream, clear the interval timer, and return to idle.  Note the code
leaves `mediaRecorderRef`, `streamRef` and `timerRef` assigned. -/
def stopRecording (env : Env) (s : AppState) : AppState :=
  let s1 :=
    match s.mediaRecorderRef with
    | some r =>
        if r.state ≠ RecorderState.inactive then
          saveRecording env
            { s with mediaRecorderRef := some { r with state := RecorderState.inactive } }
        else s
    | none => s
  let s2 :=
    match s1.streamRef with
    | some st =>
        { s1 with streamRef := some { tracks := st.tracks.map (fun _ => { stopped := true }) } }
    | none => s1
  let s3 :=
    match s2.timerRef with
    | some id => { s2 with intervals := s2.intervals.filter (fun i => i ≠ id) }
    | none => s2
  { s3 with mode := AppMode.IDLE }

/-- `startRecording` from `App.tsx`.  On success: store the stream in
`streamRef`, register the video track's `onended` handler, negotiate the
mime type, build and start the recorder, switch to `RECORDING`, reset the
time and start the 1-second interval timer.  The `catch` branch (stream
request rejected, or recorder construction failed) logs a diagnostic and
resets the mode to idle — and nothing else. -/
def startRecording (env : Env) (s : AppState) : AppState :=
  match env.displayMediaResult with
  | none =>
      { s with log := s.log ++ ["Error starting capture:"], mode := AppMode.IDLE }
  | some stream =>
      let sAcq := { s with streamRef := some stream, onendedRegistered := true }
      let mimeType := chooseMimeType sAcq.settings.saveFormat env.isTypeSupported
      if env.recorderOk mimeType then
        let sRec :=
          { sAcq with
              mediaRecorderRef := some { state := RecorderState.recording, mimeType := mimeType }
              chunksRef := [] }
        { sRec with
            mode := AppMode.RECORDING
            recordingTime := 0
            timerRef := some env.freshTimerId
            intervals := sRec.intervals ++ [env.freshTimerId] }
      else
        { sAcq with log := sAcq.log ++ ["Error starting capture:"], mode := AppMode.IDLE }

/-- The browser ending the shared capture (the user dismisses the sharing
UI): the `onended` handler installed by `startRecording` calls
`stopRecording`. -/
def browserEndsSharing (env : Env) (s : AppState) : AppState :=
  if s.onendedRegistered then stopRecording env s else s

/-- `takeScreenshot` from `App.tsx`.  On success: play the stream into a
hidden video, draw a frame to a canvas, and (when a 2d context is
available) store the data URL and switch to `SCREENSHOT_PREVIEW`; the
momentary capture stream is a local variable whose tracks are stopped
before returning.  The `catch` branch (stream request rejected) only logs
`"Screenshot failed:"` and changes nothing else. -/
def takeScreenshot (env : Env) (s : AppState) : AppState :=
  match env.screenshotDisplayMedia with
  | none =>
      { s with log := s.log ++ ["Screenshot failed:"] }
  | some _stream =>
      if env.screenshotCtxOk then
        { s with
            screenshotSrc := some env.screenshotDataUrl
            mode := AppMode.SCREENSHOT_PREVIEW }
      else s

/-! ## Annotation editor (`components/ScreenshotEditor.tsx`) -/

/-- One drawing operation applied to the canvas on top of whatever bitmap
was there.  The pen's `lineTo`/`stroke` per move is one `penTo` segment;
the rectangle preview is one stroked `rect`; the arrow preview is one
stroked line plus one two-stroke arrowhead (whose trigonometric layout is
abstracted into the carried endpoints and width). -/
inductive DrawOp
  | penTo (p : Point)
  | rect (a b : Point) (color : String) (lineWidth : Nat)
  | arrowLine (a b : Point) (color : String) (lineWidth : Nat)
  | arrowHead (a b : Point) (color : String) (lineWidth : Nat)
deriving DecidableEq, Repr

/-- A full raster snapshot of the canvas (`ctx.getImageData`), identified
with the list of operations drawn since the source image was laid down. -/
abbrev ImageData : Type := List DrawOp

/-- The `ScreenshotEditor` component state: tool/color/width/drawing-flag/
start-point React state, the undo `history`, and the canvas bitmap. -/
structure EditorState where
  selectedTool : DrawTool
  color : String
  lineWidth : Nat
  isDrawing : Bool
  startPoint : Option Point
  history : List ImageData
  canvas : ImageData
deriving DecidableEq

/-- JS `list.slice(-n)`: the last `n` elements (all of them when the list
is shorter). -/
def jsSliceLast (n : Nat) (l : List α) : List α :=
  l.drop (l.length - n)

/-- `saveState`: `setHistory(prev => [...prev.slice(-10), getImageData()])`
— keep at most the last 10 snapshots and append the current canvas. -/
def saveState (s : EditorState) : EditorState :=
  { s with history := jsSliceLast 10 s.history ++ [s.canvas] }

/-- `startDrawing`: raise the drawing flag and remember the start point
(the `beginPath`/`moveTo`/style assignments change no pixels). -/
def startDrawing (s : EditorState) (point : Point) : EditorState :=
  { s with isDrawing := true, startPoint := some point }

/-- `draw` (pointer move).  Nothing happens unless a stroke is active with
a start point.  Pen: extend the stroke on the current canvas.  Rectangle /
arrow: first `putImageData` the last history snapshot (when there is one)
to erase the previous preview, then draw the preview from the start point
to the current point.  The `TEXT` tool has no branch and draws nothing. -/
def draw (s : EditorState) (currentPoint : Point) : EditorState :=
  if s.isDrawing = false then s
  else
    match s.startPoint with
    | none => s
    | some startPoint =>
        match s.selectedTool with
        | DrawTool.PEN =>
            { s with canvas := s.canvas ++ [DrawOp.penTo currentPoint] }
        | DrawTool.RECTANGLE =>
            let base :=
              match s.history.getLast? with
              | some lastState => lastState
              | none => s.canvas
            { s with canvas := base ++ [DrawOp.rect startPoint currentPoint s.color s.lineWidth] }
        | DrawTool.ARROW =>
            let base :=
              match s.history.getLast? with
              | some lastState => lastState
              | none => s.canvas
            { s with canvas :=
                base ++ [DrawOp.arrowLine startPoint currentPoint s.color s.lineWidth,
                         DrawOp.arrowHead startPoint currentPoint s.color s.lineWidth] }
        | DrawTool.TEXT => s

/-- `endDrawing` (pointer up / leave): when a stroke is active, drop the
flag and start point and commit the canvas via `saveState`. -/
def endDrawing (s : EditorState) : EditorState :=
  if s.isDrawing = false then s
  else saveState { s with isDrawing := false, startPoint := none }

/-- `undo`: when more than one snapshot is held, pop the current one,
keep the popped list as the new history, and `putImageData` the snapshot
now on top; otherwise do nothing. -/
def undo (s : EditorState) : EditorState :=
  if s.history.length > 1 then
    let newHistory := s.history.dropLast
    let s1 := { s with history := newHistory }
    match newHistory.getLast? with
    | some previousState => { s1 with canvas := previousState }
    | none => s1
  else s

/-- The editor state right after the image-load effect ran: fresh
component state (pen tool, red, width 4, empty history) followed by the
initial `saveState` of the canvas holding the loaded image `base`. -/
def initEditorState (base : ImageData) : EditorState :=
  saveState
    { selectedTool := DrawTool.PEN
      color := "#ef4444"
      lineWidth := 4
      isDrawing := false
      startPoint := none
      history := []
      canvas := base }

/-- User-interaction events the canvas handlers receive. -/
inductive EditorEvent
  | pointerDown (p : Point)
  | pointerMove (p : Point)
  | pointerUp
  | undoClick
deriving DecidableEq, Repr

/-- Dispatch one event to the matching handler. -/
def applyEvent (s : EditorState) : EditorEvent → EditorState
  | EditorEvent.pointerDown p => startDrawing s p
  | EditorEvent.pointerMove p => draw s p
  | EditorEvent.pointerUp => endDrawing s
  | EditorEvent.undoClick => undo s

/-- Run a sequence of events. -/
def runEvents (s : EditorState) (evs : List EditorEvent) : EditorState :=
  evs.foldl applyEvent s

/-- One complete drawing gesture: press at `p`, move through `ms`,
release. -/
def gestureEvents (p : Point) (ms : List Point) : List EditorEvent :=
  EditorEvent.pointerDown p :: (ms.map EditorEvent.pointerMove ++ [EditorEvent.pointerUp])

/-! ## Concrete inputs used by counterexamples and witnesses -/

/-- A one-track capture stream whose track is still live. -/
def liveStream : MediaStream := { tracks := [{ stopped := false }] }

/-- A browser where no mp4 candidate is supported and constructing the
recorder fails even for the fallback mime type (as in engines without
vp9/webm MediaRecorder support): `getDisplayMedia` succeeds, everything
after it fails. -/
def c1Env : Env :=
  { displayMediaResult := some liveStream
    isTypeSupported := fun _ => false
    recorderOk := fun _ => false
    freshTimerId := 1
    now := 0
    screenshotDisplayMedia := none
    screenshotCtxOk := true
    screenshotDataUrl := "data:image/png" }

/-- A browser pass where the user cancels the capture picker. -/
def c1EnvNone : Env :=
  { c1Env with displayMediaResult := none }

/-- An app state in the middle of a recording: live stream, active
recorder, running interval timer with id 1. -/
def c1RecState : AppState :=
  { mode := AppMode.RECORDING
    settings := DEFAULT_SETTINGS
    recordingTime := 3
    screenshotSrc := none
    mediaRecorderRef := some { state := RecorderState.recording, mimeType := "video/webm;codecs=vp9" }
    streamRef := some liveStream
    chunksRef := [1000]
    timerRef := some 1
    onendedRegistered := true
    intervals := [1]
    downloads := []
    log := [] }

/-- A browser pass where the screenshot stream request is rejected. -/
def c9Env : Env :=
  { c1Env with displayMediaResult := none, screenshotDisplayMedia := none }

/-- A browser pass where only plain `video/mp4` is reported supported and
the recorder construction succeeds. -/
def c4Env : Env :=
  { c1Env with
      isTypeSupported := fun t => t == "video/mp4"
      recorderOk := fun _ => true }

/-- An editor state holding two snapshots (the loaded image and one
committed pen stroke). -/
def c5StateTwo : EditorState :=
  { selectedTool := DrawTool.PEN
    color := "#ef4444"
    lineWidth := 4
    isDrawing := false
    startPoint := none
    history := [[], [DrawOp.penTo { x := 5, y := 5 }]]
    canvas := [DrawOp.penTo { x := 5, y := 5 }] }

/-- An editor state holding exactly the initial snapshot. -/
def c5StateOne : EditorState := initEditorState []

/-- An editor state in the middle of a rectangle stroke started at
(10,10), over a two-snapshot history. -/
def c6MidStroke : EditorState :=
  { selectedTool := DrawTool.RECTANGLE
    color := "#ef4444"
    lineWidth := 4
    isDrawing := true
    startPoint := some { x := 10, y := 10 }
    history := [[], [DrawOp.penTo { x := 5, y := 5 }]]
    canvas := [DrawOp.penTo { x := 5, y := 5 }] }

/-- Fifteen committed strokes: each presses at (10,10), moves to (50,40)
and releases. -/
def c2Strokes : List (Point × List Point) :=
  List.replicate 15 ({ x := 10, y := 10 }, [{ x := 50, y := 40 }])

/-- The event stream of `c2Strokes`. -/
def c2Events : List EditorEvent :=
  List.flatten (c2Strokes.map fun q => gestureEvents q.1 q.2)

/-! ## Claim C7 — settings update is a merge -/

/-- C7: for every settings record and every (key, value) pair,
`updateSettings` yields a record whose named field holds the new value and
whose every other field is unchanged: the spread `{...prev, [key]: value}`
is a merge, not a replacement. -/
theorem updateSettings_is_merge (s : SettingsRecord) (key : SettingsKey) (value : SettingsValue) :
    updateSettings s key value key = value ∧
    ∀ k2 : SettingsKey, k2 ≠ key → updateSettings s key value k2 = s k2 := by
  refine ⟨by simp [updateSettings], fun k2 h2 => ?_⟩
  simp [updateSettings, h2]

/-- Witness for C7: changing `frameRate` on the default settings stores
the new value and leaves `audioEnabled` as it was. -/
theorem updateSettings_is_merge_witness :
    updateSettings DEFAULT_SETTINGS.toRecord SettingsKey.frameRate (SettingsValue.n 60)
        SettingsKey.frameRate = SettingsValue.n 60 ∧
    updateSettings DEFAULT_SETTINGS.toRecord SettingsKey.frameRate (SettingsValue.n 60)
        SettingsKey.audioEnabled = DEFAULT_SETTINGS.toRecord SettingsKey.audioEnabled := by
  have h := updateSettings_is_merge DEFAULT_SETTINGS.toRecord SettingsKey.frameRate
    (SettingsValue.n 60)
  exact ⟨h.1, h.2 SettingsKey.audioEnabled (by decide)⟩

/-! ## Claim C8 — unnamed modifiers are never checked -/

/-- C8: a binding for `"ctrl+shift+r"` fires on a key-down carrying
ctrl+shift+alt+"r", although `alt` is not named in the chord: modifiers
absent from the chord string are never checked. -/
theorem hotkey_ignores_unnamed_modifiers :
    (hotkeyKeys "ctrl+shift+r").contains "alt" = false ∧
    (handleKeyDown "ctrl+shift+r"
        { ctrlKey := true, shiftKey := true, altKey := true, metaKey := false,
          key := "r" }).callbackInvoked = true := by
  decide

/-! ## Claim C9 — failed screenshot leaves the state unchanged -/

/-- C9: when the screenshot stream request rejects, `takeScreenshot` keeps
the mode and `screenshotSrc` exactly as they were; the catch branch only
appends a console diagnostic. -/
theorem takeScreenshot_failure_keeps_state (env : Env) (s : AppState)
    (h : env.screenshotDisplayMedia = none) :
    (takeScreenshot env s).mode = s.mode ∧
    (takeScreenshot env s).screenshotSrc = s.screenshotSrc ∧
    takeScreenshot env s = { s with log := s.log ++ ["Screenshot failed:"] } := by
  refine ⟨?_, ?_, ?_⟩ <;> simp [takeScreenshot, h]

/-- Witness for C9: a cancelled screenshot from the initial state leaves
mode and screenshot source untouched. -/
theorem takeScreenshot_failure_keeps_state_witness :
    (takeScreenshot c9Env initialAppState).mode = initialAppState.mode ∧
    (takeScreenshot c9Env initialAppState).screenshotSrc = initialAppState.screenshotSrc := by
  have h := takeScreenshot_failure_keeps_state c9Env initialAppState rfl
  exact ⟨h.1, h.2.1⟩

/-! ## Claim C10 — stopRecording is idempotent -/

/-- C10: `stopRecording` is idempotent — a second invocation (recorder
already inactive, tracks already stopped, interval already cleared) leaves
the state exactly as after the first, and the mode is idle. -/
theorem stopRecording_idempotent (env : Env) (s : AppState) :
    stopRecording env (stopRecording env s) = stopRecording env s ∧
    (stopRecording env s).mode = AppMode.IDLE := by
  obtain ⟨mo, se, rt, ss, mr, sr, ch, tr, oe, iv, dl, lg⟩ := s
  rcases mr with _ | ⟨rs, mt⟩ <;> try cases rs
  all_goals
    rcases sr with _ | ⟨ts⟩ <;> rcases tr with _ | id <;>
      simp [stopRecording, saveRecording, List.map_map, List.filter_filter]

/-! ## Claim C4 — mime negotiation (corrected) -/

/-- Counterexample to C4 as stated: the probing of the mp4 candidate list
does not happen for every configured save format.  In a browser that
supports every candidate, the spec-worded chooser would pick
`video/mp4;codecs=avc1`, but with `saveFormat = webm` the code
unconditionally keeps the vp9 default. -/
theorem chooseMimeType_not_probing_for_webm :
    chooseMimeType SaveFormat.webm (fun _ => true) = "video/webm;codecs=vp9" ∧
    chooseMimeTypeSpec (fun _ => true) = "video/mp4;codecs=avc1" ∧
    chooseMimeType SaveFormat.webm (fun _ => true) ≠ chooseMimeTypeSpec (fun _ => true) := by
  refine ⟨rfl, rfl, ?_⟩
  decide

/-- C4 amended: only when the configured save format is mp4 is the output
encoding chosen by probing the fixed candidate list and taking the first
supported entry, falling back to `video/webm;codecs=vp9`; for webm the vp9
default is used without probing.  The recorder built by a successful
`startRecording` carries exactly the negotiated mime type. -/
theorem chooseMimeType_first_supported (sup : String → Bool) (env : Env) (s : AppState)
    (stream : MediaStream) :
    chooseMimeType SaveFormat.mp4 sup = chooseMimeTypeSpec sup ∧
    chooseMimeTypeSpec sup =
      (match mp4Types.find? sup with
       | some t => t
       | none => "video/webm;codecs=vp9") ∧
    chooseMimeType SaveFormat.webm sup = "video/webm;codecs=vp9" ∧
    (env.displayMediaResult = some stream →
      env.recorderOk (chooseMimeType s.settings.saveFormat env.isTypeSupported) = true →
      (startRecording env s).mediaRecorderRef =
        some { state := RecorderState.recording,
               mimeType := chooseMimeType s.settings.saveFormat env.isTypeSupported }) := by
  refine ⟨rfl, rfl, rfl, fun h1 h2 => ?_⟩
  simp [startRecording, h1, h2]

/-- Witness for C4 (amended): in a browser supporting only plain
`video/mp4`, starting a recording with the default (mp4) settings yields a
recorder encoding `video/mp4`. -/
theorem chooseMimeType_first_supported_witness :
    (startRecording c4Env initialAppState).mediaRecorderRef =
      some { state := RecorderState.recording, mimeType := "video/mp4" } := by
  have h := (chooseMimeType_first_supported c4Env.isTypeSupported c4Env initialAppState
    liveStream).2.2.2 rfl rfl
  exact h.trans (by decide)

/-! ## Editor helper lemmas -/

/-- A pointer move never touches the history, the drawing flag or the
start point. -/
theorem draw_preserves_control (t : EditorState) (m : Point) :
    (draw t m).history = t.history ∧ (draw t m).isDrawing = t.isDrawing ∧
    (draw t m).startPoint = t.startPoint := by
  cases hD : t.isDrawing <;> rcases hSP : t.startPoint with _ | sp <;>
    cases hT : t.selectedTool <;>
      simp [draw, hD, hSP, hT]

/-- Running any list of pointer moves keeps history, drawing flag and
start point. -/
theorem moves_preserve_control (ms : List Point) : ∀ (t : EditorState),
    ((ms.map EditorEvent.pointerMove).foldl applyEvent t).history = t.history ∧
    ((ms.map EditorEvent.pointerMove).foldl applyEvent t).isDrawing = t.isDrawing := by
  induction ms with
  | nil => intro t; exact ⟨rfl, rfl⟩
  | cons m ms ih =>
      intro t
      have hd := draw_preserves_control t m
      have := ih (draw t m)
      exact ⟨this.1.trans hd.1, this.2.trans hd.2.1⟩

/-- The length of a JS `slice(-n)`. -/
theorem jsSliceLast_length (n : Nat) (l : List α) :
    (jsSliceLast n l).length = min l.length n := by
  simp [jsSliceLast]
  omega

/-- A full gesture run: the final state's history is the capped old
history with the final canvas appended, and the drawing flag is back
down. -/
theorem runEvents_gesture (t : EditorState) (p : Point) (ms : List Point) :
    (runEvents t (gestureEvents p ms)).history =
      jsSliceLast 10 t.history ++ [(runEvents t (gestureEvents p ms)).canvas] ∧
    (runEvents t (gestureEvents p ms)).isDrawing = false := by
  have hrun : runEvents t (gestureEvents p ms) =
      endDrawing ((ms.map EditorEvent.pointerMove).foldl applyEvent (startDrawing t p)) := by
    simp [runEvents, gestureEvents, applyEvent, List.foldl_append]
  have hm := moves_preserve_control ms (startDrawing t p)
  have hdraw : ((ms.map EditorEvent.pointerMove).foldl applyEvent (startDrawing t p)).isDrawing
      = true := by
    rw [hm.2]; rfl
  have hhist : ((ms.map EditorEvent.pointerMove).foldl applyEvent (startDrawing t p)).history
      = t.history := by
    rw [hm.1]; rfl
  rw [hrun]
  constructor
  · simp [endDrawing, hdraw, saveState, hhist]
  · simp [endDrawing, hdraw, saveState]

/-- History length after one gesture. -/
theorem runEvents_gesture_length (t : EditorState) (p : Point) (ms : List Point) :
    (runEvents t (gestureEvents p ms)).history.length = min t.history.length 10 + 1 := by
  have h := (runEvents_gesture t p ms).1
  rw [h]
  simp [jsSliceLast_length]

/-- `undo` on a history of length at most one is the identity. -/
theorem undo_of_short_history (s : EditorState) (h : ¬ s.history.length > 1) :
    undo s = s := by
  simp [undo, h]

/-- `undo` on a history of length at least two pops one snapshot. -/
theorem undo_history_length (s : EditorState) (h : s.history.length > 1) :
    (undo s).history.length = s.history.length - 1 := by
  have hne : s.history.dropLast ≠ [] := by
    intro hempty
    have : s.history.dropLast.length = s.history.length - 1 := by
      simp [List.length_dropLast]
    rw [hempty] at this
    simp at this
    omega
  obtain ⟨prev, hp⟩ := Option.isSome_iff_exists.mp
    ((List.getLast?_isSome (l := s.history.dropLast)).mpr hne)
  simp [undo, h, hp, List.length_dropLast]

/-- Iterated `undo` from an 11-snapshot state: after `k ≤ 10` steps the
history holds `11 - k` snapshots. -/
theorem undo_iter_from_eleven (s : EditorState) (h : s.history.length = 11) :
    ∀ k, k ≤ 10 → (undo^[k] s).history.length = 11 - k := by
  intro k
  induction k with
  | zero => intro _; simpa using h
  | succ j ih =>
      intro hj
      have hj10 : j ≤ 10 := by omega
      have hlen := ih hj10
      rw [Function.iterate_succ_apply']
      rw [undo_history_length (undo^[j] s) (by omega)]
      omega

/-- Fifteen iterations of the per-commit length step, starting from the
single loaded snapshot, land exactly on the 11-snapshot cap. -/
theorem capStep_iterate_fifteen :
    (fun n => min n 10 + 1)^[15] 1 = 11 := by
  decide

/-- History length after a list of gestures, from any rest state. -/
theorem runEvents_gestures_length (ps : List (Point × List Point)) : ∀ (t : EditorState),
    (runEvents t (List.flatten (ps.map fun q => gestureEvents q.1 q.2))).history.length =
      (fun n => min n 10 + 1)^[ps.length] t.history.length := by
  induction ps with
  | nil => intro t; rfl
  | cons q ps ih =>
      intro t
      have hsplit :
          runEvents t (List.flatten ((q :: ps).map fun r => gestureEvents r.1 r.2)) =
            runEvents (runEvents t (gestureEvents q.1 q.2))
              (List.flatten (ps.map fun r => gestureEvents r.1 r.2)) := by
        simp [runEvents, List.foldl_append]
      rw [hsplit, ih, runEvents_gesture_length]
      rw [List.length_cons, Function.iterate_succ_apply]

/-- Every editor event keeps the history within the 11-snapshot cap. -/
theorem applyEvent_preserves_cap (s : EditorState) (ev : EditorEvent)
    (h : s.history.length ≤ 11) : (applyEvent s ev).history.length ≤ 11 := by
  cases ev with
  | pointerDown p => simpa [applyEvent, startDrawing] using h
  | pointerMove p =>
      have := (draw_preserves_control s p).1
      simp only [applyEvent]
      rw [this]
      exact h
  | pointerUp =>
      by_cases hd : s.isDrawing = false
      · simp only [applyEvent, endDrawing, hd]
        simpa using h
      · have hd2 : s.isDrawing = true := by
          cases hD : s.isDrawing
          · exact absurd hD hd
          · rfl
        simp only [applyEvent, endDrawing, hd2]
        simp [saveState, jsSliceLast_length]
  | undoClick =>
      by_cases hu : s.history.length > 1
      · rw [applyEvent, undo_history_length s hu]
        omega
      · rw [applyEvent, undo_of_short_history s hu]
        exact h

/-- Any event run from a state within the cap stays within the cap. -/
theorem runEvents_preserves_cap (evs : List EditorEvent) : ∀ (s : EditorState),
    s.history.length ≤ 11 → (runEvents s evs).history.length ≤ 11 := by
  induction evs with
  | nil => intro s h; exact h
  | cons ev evs ih =>
      intro s h
      exact ih (applyEvent s ev) (applyEvent_preserves_cap s ev h)

/-- The freshly loaded editor holds exactly one snapshot. -/
theorem initEditorState_history_length (base : ImageData) :
    (initEditorState base).history.length = 1 := by
  rfl

/-! ## Claim C5 — undo pops or is a no-op -/

/-- C5: with more than one snapshot, `undo` removes the last snapshot and
restores the canvas to the snapshot beneath it; with exactly one snapshot
it changes nothing. -/
theorem undo_pops_or_noop (s : EditorState) :
    (s.history.length > 1 →
      (undo s).history = s.history.dropLast ∧
      ∃ prev, s.history.dropLast.getLast? = some prev ∧ (undo s).canvas = prev) ∧
    (s.history.length = 1 → undo s = s) := by
  constructor
  · intro h
    have hne : s.history.dropLast ≠ [] := by
      have : s.history.dropLast.length = s.history.length - 1 := by
        simp [List.length_dropLast]
      intro hempty
      rw [hempty] at this
      simp at this
      omega
    obtain ⟨prev, hp⟩ := Option.isSome_iff_exists.mp
      ((List.getLast?_isSome (l := s.history.dropLast)).mpr hne)
    refine ⟨?_, prev, hp, ?_⟩ <;> simp [undo, h, hp]
  · intro h
    simp [undo, h]

/-- Witness for C5: a two-snapshot state pops back to the loaded image; a
one-snapshot state is untouched. -/
theorem undo_pops_or_noop_witness :
    ((undo c5StateTwo).history = c5StateTwo.history.dropLast ∧
      ∃ prev, c5StateTwo.history.dropLast.getLast? = some prev ∧ (undo c5StateTwo).canvas = prev) ∧
    undo c5StateOne = c5StateOne :=
  ⟨(undo_pops_or_noop c5StateTwo).1 (by decide), (undo_pops_or_noop c5StateOne).2 (by decide)⟩

/-! ## Claim C1 — resource release on exit paths (corrected) -/

/-- Counterexample to C1 as stated: when `startRecording` fails *after*
the stream was acquired (here: the recorder cannot be constructed for the
negotiated mime type), the catch branch returns the app to idle without
stopping the acquired stream's tracks — the track is still live while the
mode is back to `IDLE`. -/
theorem startRecording_error_leaks_tracks :
    (startRecording c1Env initialAppState).mode = AppMode.IDLE ∧
    (startRecording c1Env initialAppState).streamRef =
      some { tracks := [{ stopped := false }] } := by
  decide

/-- C1 amended: on the stop-button and browser-ended-track exit paths the
capture stream's tracks are all stopped and the interval timer is cleared
before the app is back in idle state; an error in `startRecording` before
the stream is acquired returns to idle with nothing to release; but when
`startRecording` fails after acquiring the stream, the app returns to idle
leaving the acquired tracks running and the timer reference untouched. -/
theorem recording_release_on_exit (env : Env) (s : AppState) :
    ((stopRecording env s).mode = AppMode.IDLE ∧
      (∀ st, (stopRecording env s).streamRef = some st → ∀ t ∈ st.tracks, t.stopped = true) ∧
      (∀ id, s.timerRef = some id → id ∉ (stopRecording env s).intervals)) ∧
    (s.onendedRegistered = true → browserEndsSharing env s = stopRecording env s) ∧
    (env.displayMediaResult = none →
      startRecording env s =
        { s with mode := AppMode.IDLE, log := s.log ++ ["Error starting capture:"] }) ∧
    (∀ stream, env.displayMediaResult = some stream →
      env.recorderOk (chooseMimeType s.settings.saveFormat env.isTypeSupported) = false →
      (startRecording env s).mode = AppMode.IDLE ∧
      (startRecording env s).streamRef = some stream ∧
      (startRecording env s).timerRef = s.timerRef ∧
      (startRecording env s).intervals = s.intervals) := by
  refine ⟨⟨?_, ?_, ?_⟩, ?_, ?_, ?_⟩
  · obtain ⟨mo, se, rt, ss, mr, sr, ch, tr, oe, iv, dl, lg⟩ := s
    rcases mr with _ | ⟨rs, mt⟩ <;> try cases rs
    all_goals
      rcases sr with _ | ⟨ts⟩ <;> rcases tr with _ | id <;>
        simp [stopRecording, saveRecording]
  · intro st hst t ht
    obtain ⟨mo, se, rt, ss, mr, sr, ch, tr, oe, iv, dl, lg⟩ := s
    rcases mr with _ | ⟨rs, mt⟩ <;> try cases rs
    all_goals
      rcases sr with _ | ⟨ts⟩ <;> rcases tr with _ | id <;>
        simp [stopRecording, saveRecording] at hst <;>
        subst hst <;> simp at ht <;> simp [ht.2]
  · intro id hid
    obtain ⟨mo, se, rt, ss, mr, sr, ch, tr, oe, iv, dl, lg⟩ := s
    simp only at hid
    subst hid
    rcases mr with _ | ⟨rs, mt⟩ <;> try cases rs
    all_goals
      rcases sr with _ | ⟨ts⟩ <;>
        simp [stopRecording, saveRecording]
  · intro h
    simp [browserEndsSharing, h]
  · intro h
    simp [startRecording, h]
  · intro stream h1 h2
    refine ⟨?_, ?_, ?_, ?_⟩ <;> simp [startRecording, h1, h2]

/-- Witness for C1 (amended): from a mid-recording state, stopping cleans
up (idle mode, interval 1 cleared, stopped track restated through the
theorem); a cancelled picker resets to idle changing nothing else; a
post-acquisition failure leaves the stream reference holding a live
track. -/
theorem recording_release_on_exit_witness :
    (stopRecording c1Env c1RecState).mode = AppMode.IDLE ∧
    1 ∉ (stopRecording c1Env c1RecState).intervals ∧
    (Track.mk true).stopped = true ∧
    browserEndsSharing c1Env c1RecState = stopRecording c1Env c1RecState ∧
    startRecording c1EnvNone c1RecState =
      { c1RecState with mode := AppMode.IDLE,
                        log := c1RecState.log ++ ["Error starting capture:"] } ∧
    (startRecording c1Env c1RecState).streamRef = some liveStream := by
  have h := recording_release_on_exit c1Env c1RecState
  have h2 := recording_release_on_exit c1EnvNone c1RecState
  exact ⟨h.1.1, h.1.2.2 1 rfl,
    h.1.2.1 { tracks := [{ stopped := true }] } (by decide) (Track.mk true) (by decide),
    h.2.1 rfl, h2.2.2.1 rfl, (h.2.2.2 liveStream rfl rfl).2.1⟩

/-! ## Claim C2 — bounded undo history -/

/-- C2: from a freshly loaded editor, every event sequence keeps the undo
history within 11 snapshots; a commit on a full (11-snapshot) history
discards the oldest snapshot; and after any 15 committed strokes the
history holds exactly 11 snapshots, each of the first ten undos removes
one snapshot (ending on the single loaded snapshot), and an eleventh undo
is a no-op. -/
theorem undo_history_bounded (base : ImageData) (evs : List EditorEvent)
    (ps : List (Point × List Point)) (h15 : ps.length = 15) :
    (runEvents (initEditorState base) evs).history.length ≤ 11 ∧
    (∀ t : EditorState, t.history.length = 11 →
      (saveState t).history = t.history.tail ++ [t.canvas]) ∧
    (runEvents (initEditorState base)
        (List.flatten (ps.map fun q => gestureEvents q.1 q.2))).history.length = 11 ∧
    (∀ k, k ≤ 10 →
      (undo^[k] (runEvents (initEditorState base)
        (List.flatten (ps.map fun q => gestureEvents q.1 q.2)))).history.length = 11 - k) ∧
    undo^[11] (runEvents (initEditorState base)
        (List.flatten (ps.map fun q => gestureEvents q.1 q.2))) =
      undo^[10] (runEvents (initEditorState base)
        (List.flatten (ps.map fun q => gestureEvents q.1 q.2))) := by
  have hlen11 :
      (runEvents (initEditorState base)
        (List.flatten (ps.map fun q => gestureEvents q.1 q.2))).history.length = 11 := by
    rw [runEvents_gestures_length, initEditorState_history_length, h15]
    exact capStep_iterate_fifteen
  have hiter := undo_iter_from_eleven _ hlen11
  refine ⟨?_, ?_, hlen11, hiter, ?_⟩
  · exact runEvents_preserves_cap evs (initEditorState base)
      (by rw [initEditorState_history_length]; omega)
  · intro t ht
    have : jsSliceLast 10 t.history = t.history.tail := by
      simp [jsSliceLast, ht, List.drop_one]
    simp [saveState, this]
  · have h10 := hiter 10 (by omega)
    rw [show (11 : Nat) = 10 + 1 from rfl, Function.iterate_succ_apply']
    exact undo_of_short_history _ (by omega)

/-- Witness for C2: fifteen concrete rectangle-like gestures from a
loaded editor leave 11 snapshots; ten undos reach the single loaded
snapshot and an eleventh changes nothing. -/
theorem undo_history_bounded_witness :
    (runEvents (initEditorState []) c2Events).history.length ≤ 11 ∧
    (runEvents (initEditorState []) c2Events).history.length = 11 ∧
    (undo^[10] (runEvents (initEditorState []) c2Events)).history.length = 1 ∧
    undo^[11] (runEvents (initEditorState []) c2Events) =
      undo^[10] (runEvents (initEditorState []) c2Events) := by
  have h := undo_history_bounded [] c2Events c2Strokes (by decide)
  have h10 := h.2.2.2.1 10 (by omega)
  exact ⟨h.1, h.2.2.1, by simpa using h10, h.2.2.2.2⟩

/-! ## Claim C6 — one history entry per gesture, committed at release -/

/-- C6: a drawing gesture (press, any number of moves, release) commits
exactly one new history entry, at release: the resulting history is the
capped old history with the release-time canvas appended (so its length is
`min (old+1) 11`), while every proper prefix of the gesture leaves the
history untouched; and during a rectangle or arrow gesture each move first
restores the pre-stroke snapshot (the last history entry) and then draws
the preview on top of it. -/
theorem gesture_commits_once (s : EditorState) (p : Point) (ms : List Point)
    (_hrest : s.isDrawing = false) :
    (runEvents s (gestureEvents p ms)).history =
      jsSliceLast 10 s.history ++ [(runEvents s (gestureEvents p ms)).canvas] ∧
    (runEvents s (gestureEvents p ms)).history.length = min (s.history.length + 1) 11 ∧
    (∀ k, k < (gestureEvents p ms).length →
      (runEvents s ((gestureEvents p ms).take k)).history = s.history) ∧
    (∀ (t : EditorState) (m sp : Point), t.isDrawing = true → t.startPoint = some sp →
      (t.selectedTool = DrawTool.RECTANGLE →
        (draw t m).canvas =
          (t.history.getLast?.getD t.canvas) ++ [DrawOp.rect sp m t.color t.lineWidth]) ∧
      (t.selectedTool = DrawTool.ARROW →
        (draw t m).canvas =
          (t.history.getLast?.getD t.canvas) ++
            [DrawOp.arrowLine sp m t.color t.lineWidth,
             DrawOp.arrowHead sp m t.color t.lineWidth])) := by
  refine ⟨(runEvents_gesture s p ms).1, ?_, ?_, ?_⟩
  · rw [runEvents_gesture_length]
    omega
  · intro k hk
    simp only [gestureEvents, List.length_cons, List.length_append, List.length_map,
      List.length_singleton] at hk
    cases k with
    | zero => rfl
    | succ j =>
        have hj : j ≤ ms.length := by
          simp at hk
          omega
        have htake :
            (gestureEvents p ms).take (j + 1) =
              EditorEvent.pointerDown p :: (ms.take j).map EditorEvent.pointerMove := by
          simp [gestureEvents, List.take_append_of_le_length, hj, List.map_take]
        rw [htake]
        show (((ms.take j).map EditorEvent.pointerMove).foldl applyEvent
          (startDrawing s p)).history = s.history
        rw [(moves_preserve_control (ms.take j) (startDrawing s p)).1]
        rfl
  · intro t m sp hD hSP
    constructor <;> intro hT <;>
      cases hL : t.history.getLast? <;>
        simp [draw, hD, hSP, hT, hL]

/-- Witness for C6: a rectangle gesture from (10,10) to (50,40) on a
fresh editor appends exactly one entry; its only proper prefixes leave the
single loaded snapshot; and a rectangle-tool move from a mid-stroke state
redraws on top of the stored snapshot. -/
theorem gesture_commits_once_witness :
    (runEvents (initEditorState []) (gestureEvents { x := 10, y := 10 } [{ x := 50, y := 40 }])).history =
      jsSliceLast 10 (initEditorState []).history ++
        [(runEvents (initEditorState [])
            (gestureEvents { x := 10, y := 10 } [{ x := 50, y := 40 }])).canvas] ∧
    (runEvents (initEditorState [])
        (gestureEvents { x := 10, y := 10 } [{ x := 50, y := 40 }])).history.length = 2 ∧
    (runEvents (initEditorState [])
        ((gestureEvents { x := 10, y := 10 } [{ x := 50, y := 40 }]).take 2)).history =
      (initEditorState []).history ∧
    (draw c6MidStroke { x := 50, y := 40 }).canvas =
      ((c6MidStroke.history.getLast?).getD c6MidStroke.canvas) ++
        [DrawOp.rect { x := 10, y := 10 } { x := 50, y := 40 } c6MidStroke.color
          c6MidStroke.lineWidth] := by
  have h := gesture_commits_once (initEditorState []) { x := 10, y := 10 }
    [{ x := 50, y := 40 }] rfl
  have hdraw := (h.2.2.2 c6MidStroke { x := 50, y := 40 } { x := 10, y := 10 } rfl rfl).1 rfl
  exact ⟨h.1, by rw [h.2.1]; decide, h.2.2.1 2 (by decide), hdraw⟩

/-! ## Hotkey helper lemmas -/

/-- When a filter has `a` in front of its result, `find?` returns `a`. -/
theorem find?_eq_of_filter_cons (p : α → Bool) : ∀ (l : List α) (a : α) (t : List α),
    l.filter p = a :: t → l.find? p = some a := by
  intro l
  induction l with
  | nil => intro a t h; simp at h
  | cons x xs ih =>
      intro a t h
      rw [List.filter_cons] at h
      by_cases hx : p x
      · simp [hx] at h
        rw [List.find?_cons_of_pos _ hx, h.1]
      · simp [hx] at h
        rw [List.find?_cons_of_neg _ (by simp [hx])]
        exact ih a t h

/-- In a duplicate-free chord, the number of modifier entries is one per
modifier name present. -/
theorem filter_modifiers_length : ∀ (ks : List String), ks.Nodup →
    (ks.filter (fun k => modifierNames.contains k)).length =
      (if "ctrl" ∈ ks then 1 else 0) + (if "shift" ∈ ks then 1 else 0) +
      (if "alt" ∈ ks then 1 else 0) := by
  intro ks
  induction ks with
  | nil => simp
  | cons k t ih =>
      intro h
      rw [List.nodup_cons] at h
      obtain ⟨hk, ht⟩ := h
      have htl := ih ht
      rw [List.filter_cons]
      by_cases h1 : k = "ctrl"
      · subst h1
        simp [modifierNames, hk] at htl ⊢
        omega
      · by_cases h2 : k = "shift"
        · subst h2
          simp [modifierNames, hk] at htl ⊢
          omega
        · by_cases h3 : k = "alt"
          · subst h3
            simp [modifierNames, hk] at htl ⊢
            omega
          · simp [modifierNames, h1, h2, h3] at htl ⊢
            simp [htl, Ne.symm h1, Ne.symm h2, Ne.symm h3]

/-- A chord splits into its modifier entries and its other entries. -/
theorem length_filter_split (ks : List String) :
    ks.length = (ks.filter (fun k => modifierNames.contains k)).length +
      (ks.filter (fun k => !(modifierNames.contains k))).length := by
  simpa using List.length_eq_length_filter_add (l := ks) (fun k => modifierNames.contains k)

/-- For a duplicate-free chord with exactly one non-modifier key that is
not the empty (falsy) string, the `pressed` array has exactly one entry
per chord entry, so the handler's length guard is met. -/
theorem hotkeyPressedList_length (ks : List String) (e : KeyEvent) (mainKey : String)
    (hnd : ks.Nodup) (hf : ks.filter (fun k => !(modifierNames.contains k)) = [mainKey])
    (hmk : mainKey ≠ "") :
    (hotkeyPressedList ks e).length = ks.length := by
  have hfind := find?_eq_of_filter_cons _ ks mainKey [] hf
  have hlen := length_filter_split ks
  rw [hf, filter_modifiers_length ks hnd] at hlen
  simp only [List.length_cons, List.length_nil] at hlen
  rw [hotkeyPressedList, hfind]
  simp [apply_ite List.length, List.elem_iff, hmk]
  omega

/-! ## Claim C3 — chord matching -/

/-- C3: for a chord with duplicate-free entries and exactly one
non-modifier key, that key being non-empty (a falsy found key never
fires, by the source's truthiness guard), the handler invokes the
callback (and suppresses the default action, which coincides with
invocation) exactly on the key-down events where every modifier named in
the chord is reported pressed and the lower-cased event key equals the
chord's non-modifier key; in particular a binding for `"ctrl+shift+r"`
does not fire with only ctrl held and key `"r"`. -/
theorem hotkey_fires_iff (keyCombo : String) (e : KeyEvent) (mainKey : String)
    (hnd : (hotkeyKeys keyCombo).Nodup)
    (hf : (hotkeyKeys keyCombo).filter (fun k => !(modifierNames.contains k)) = [mainKey])
    (hmk : mainKey ≠ "") :
    ((handleKeyDown keyCombo e).callbackInvoked = true ↔
      ("ctrl" ∈ hotkeyKeys keyCombo → e.ctrlKey = true) ∧
      ("shift" ∈ hotkeyKeys keyCombo → e.shiftKey = true) ∧
      ("alt" ∈ hotkeyKeys keyCombo → e.altKey = true) ∧
      jsToLower e.key = mainKey) ∧
    (handleKeyDown keyCombo e).preventDefault = (handleKeyDown keyCombo e).callbackInvoked ∧
    (handleKeyDown "ctrl+shift+r"
        { ctrlKey := true, shiftKey := false, altKey := false, metaKey := false,
          key := "r" }).callbackInvoked = false := by
  refine ⟨?_, rfl, by decide⟩
  have hfind := find?_eq_of_filter_cons _ (hotkeyKeys keyCombo) mainKey [] hf
  have hplen := hotkeyPressedList_length (hotkeyKeys keyCombo) e mainKey hnd hf hmk
  show ((hotkeyPressedList (hotkeyKeys keyCombo) e).all (fun p => p) &&
      (hotkeyPressedList (hotkeyKeys keyCombo) e).length == (hotkeyKeys keyCombo).length) =
        true ↔ _
  rw [hplen]
  simp only [beq_self_eq_true, Bool.and_true]
  rw [hotkeyPressedList, hfind]
  by_cases hc : "ctrl" ∈ hotkeyKeys keyCombo <;>
    by_cases hs : "shift" ∈ hotkeyKeys keyCombo <;>
      by_cases ha : "alt" ∈ hotkeyKeys keyCombo <;>
        simp [hc, hs, ha, hmk, List.elem_iff, List.all_append, and_assoc]

/-- Witness for C3: `"ctrl+shift+r"` (a duplicate-free chord whose only
non-modifier key is `"r"`) fires on ctrl+shift+"R". -/
theorem hotkey_fires_iff_witness :
    (handleKeyDown "ctrl+shift+r"
        { ctrlKey := true, shiftKey := true, altKey := false, metaKey := false,
          key := "R" }).callbackInvoked = true :=
  (hotkey_fires_iff "ctrl+shift+r"
      { ctrlKey := true, shiftKey := true, altKey := false, metaKey := false, key := "R" }
      "r" (by decide) (by decide) (by decide)).1.mpr (by decide)

end ScreenMaster
